import Mathlib

/-!
Verification development for the profile extraction and cross-validation
engine of the beneficiary backend (`src/common/helper/profileUpdate/
profile-update.ts` and `src/common/profile-validator/
profile-validator.service.ts`).

The TypeScript code is shallowly embedded: JSON/JavaScript values become the
inductive type `JSVal`, JavaScript numbers in the paths this engine exercises
are integers or `NaN` (`JSNum`), and code that can raise a `TypeError` is
embedded in `Except String`.  Configuration JSON files (which live outside
the embedded sources) are passed as explicit parameters whose shapes follow
the configuration contract described in the design document.
-/

set_option autoImplicit false

namespace ProfileEngine

/-- JavaScript numbers as they occur in this engine: every numeric value that
flows through the embedded code paths is an integer or `NaN` (floats never
arise in the claims' inputs), so a number is modelled as an `Int` or the
distinguished `nan`. -/
inductive JSNum where
  | int (n : Int)
  | nan
  deriving DecidableEq, Repr

/-- JavaScript/JSON values: `null` and `undefined` are distinguished (the
builder's resolver returns `null`, the validator's returns `undefined` or a
falsy accumulator), objects and arrays carry their members in insertion
order. -/
inductive JSVal where
  | null
  | undef
  | bool (b : Bool)
  | num (n : JSNum)
  | str (s : String)
  | obj (fields : List (String × JSVal))
  | arr (elems : List JSVal)
  deriving Repr

/-- Tests for the `undefined` value. -/
def JSVal.isUndef : JSVal → Bool
  | .undef => true
  | _ => false

/-- JavaScript truthiness: `undefined`, `null`, `false`, `0`, `NaN` and the
empty string are falsy; every object and array is truthy. -/
def truthy : JSVal → Bool
  | .null => false
  | .undef => false
  | .bool b => b
  | .num (.int n) => n != 0
  | .num .nan => false
  | .str s => s != ""
  | .obj _ => true
  | .arr _ => true

/-- Splits a character list at every separator the predicate accepts,
keeping empty segments, as JavaScript `String.prototype.split` does
(`"a..b".split('.')` is `["a", "", "b"]`).  Implemented structurally so
that every use reduces inside the kernel. -/
def splitByAux (p : Char → Bool) : List Char → List Char → List String
  | [], acc => [String.mk acc.reverse]
  | c :: rest, acc =>
    if p c then String.mk acc.reverse :: splitByAux p rest []
    else splitByAux p rest (c :: acc)

/-- JavaScript `s.split(sep)` for a single-character separator. -/
def jsSplitChar (sep : Char) (s : String) : List String :=
  splitByAux (fun c => c == sep) s.toList []

/-- The numeric value of a non-empty all-digit character run, `none`
otherwise. -/
def natOfDigits (cs : List Char) : Option Nat :=
  match cs with
  | [] => none
  | _ =>
    cs.foldl
      (fun acc c =>
        match acc with
        | none => none
        | some n => if c.isDigit then some (n * 10 + (c.toNat - 48)) else none)
      (some 0)

/-- Whitespace characters recognised by the trim model. -/
def isWsChar (c : Char) : Bool :=
  c = ' ' ∨ c = '\t' ∨ c = '\n' ∨ c = '\r'

/-- JavaScript `s.trim()` on the ASCII whitespace the engine's inputs
carry. -/
def jsTrim (s : String) : String :=
  let l1 := s.toList.dropWhile isWsChar
  String.mk ((l1.reverse.dropWhile isWsChar).reverse)

/-- JavaScript `s.toLowerCase()` on ASCII input. -/
def jsToLower (s : String) : String :=
  String.mk (s.toList.map Char.toLower)

/-- Decimal digits of `n`, most significant first, by fuelled division. -/
def natToCharsAux : Nat → Nat → List Char
  | 0, _ => []
  | fuel + 1, n =>
    if n < 10 then [Char.ofNat (48 + n)]
    else natToCharsAux fuel (n / 10) ++ [Char.ofNat (48 + n % 10)]

/-- Decimal rendering of a natural number. -/
def natToString (n : Nat) : String :=
  String.mk (natToCharsAux (n + 1) n)

/-- Property access `v[part]` on a JavaScript value, for the shapes this
engine reads: object member lookup (first binding wins), array indexing by a
decimal string, and `undefined` on any other receiver.  Exotic cases such as
`"abc".length` never occur on the configured paths and are not modelled. -/
def jsIndex (v : JSVal) (part : String) : JSVal :=
  match v with
  | .obj fields => (fields.lookup part).getD JSVal.undef
  | .arr elems =>
    match natOfDigits part.toList with
    | some i => (elems.get? i).getD JSVal.undef
    | none => JSVal.undef
  | _ => JSVal.undef

/-- The result of JavaScript `Number()` on the trimmed string forms this
engine feeds it: the empty string converts to `0`, optionally signed digit
strings convert to the corresponding integer, and everything else is
modelled as `NaN` (fractional, hexadecimal and exponent forms do not occur
in the claims' inputs). -/
def strToNumber (s : String) : JSNum :=
  let t := (jsTrim s).toList
  match t with
  | [] => .int 0
  | '-' :: rest =>
    match natOfDigits rest with
    | some n => .int (-(n : Int))
    | none => .nan
  | '+' :: rest =>
    match natOfDigits rest with
    | some n => .int n
    | none => .nan
  | _ =>
    match natOfDigits t with
    | some n => .int n
    | none => .nan

/-- JavaScript `ToNumber` on primitive values (objects and arrays would go
through `ToPrimitive`, which the engine never exercises and which is
modelled as `NaN`). -/
def toNum : JSVal → JSNum
  | .null => .int 0
  | .undef => .nan
  | .bool b => .int (if b then 1 else 0)
  | .num n => n
  | .str s => strToNumber s
  | .obj _ => .nan
  | .arr _ => .nan

/-- Numeric equality with JavaScript `NaN` semantics: `NaN` is equal to
nothing, including itself. -/
def jsNumEq : JSNum → JSNum → Bool
  | .int a, .int b => a == b
  | _, _ => false

/-- JavaScript loose equality `==` restricted to the value shapes the engine
compares: `null`/`undefined` are mutually equal and equal to nothing else,
strings compare structurally, numeric comparisons (including string/number
and boolean coercions) go through `ToNumber`, and object/array operands
(reference equality in JavaScript, never produced by distinct parses of the
same datum here) compare unequal. -/
def jsLooseEq (a b : JSVal) : Bool :=
  match a, b with
  | .null, .null => true
  | .null, .undef => true
  | .undef, .null => true
  | .undef, .undef => true
  | .null, _ => false
  | _, .null => false
  | .undef, _ => false
  | _, .undef => false
  | .str x, .str y => x == y
  | .obj _, _ => false
  | _, .obj _ => false
  | .arr _, _ => false
  | _, .arr _ => false
  | x, y => jsNumEq (toNum x) (toNum y)

/-- A verifiable-credential record as the engine consumes it: `docType`
identifies the document kind, `content` is the parsed JSON payload, and the
validator additionally matches on the optional `vcType` and `docFormat`
fields (absent on builder-side records, hence `Option`). -/
structure VC where
  docType : String
  content : JSVal
  vcType : Option String := none
  docFormat : Option String := none

/-- A calendar date as year/month/day. -/
structure YMD where
  year : Nat
  month : Nat
  day : Nat
  deriving DecidableEq, Repr

/-- Left-pads the decimal representation of `n` with zeros to width `w`. -/
def padNum (w : Nat) (n : Nat) : String :=
  let s := natToString n
  String.mk (List.replicate (w - s.toList.length) '0') ++ s

/-- Renders a date in the `yyyy-MM-dd` shape produced by
`format(date, 'yyyy-MM-dd')`. -/
def formatYMD (d : YMD) : String :=
  padNum 4 d.year ++ "-" ++ padNum 2 d.month ++ "-" ++ padNum 2 d.day

/-- Number of days in a month under the Gregorian leap-year rule, used by the
`date-fns` parser model to validate a parsed day-of-month. -/
def daysInMonth (y m : Nat) : Nat :=
  if m = 2 then
    if y % 4 = 0 ∧ (y % 100 ≠ 0 ∨ y % 400 = 0) then 29 else 28
  else if m = 4 ∨ m = 6 ∨ m = 9 ∨ m = 11 then 30
  else 31

/-- V8's two-digit-year rule in the legacy date parser: years below 50 land
in the 2000s, years from 50 to 99 in the 1900s. -/
def fixupYear (y : Nat) : Nat :=
  if y < 50 then 2000 + y else if y < 100 then 1900 + y else y

/-- Models `new Date(string)` as implemented by V8 (the Node.js runtime this
repository targets), restricted to the purely numeric year/month/day strings
the engine's date fields carry: the string is split on `-` or `/` into
exactly three decimal components `a`, `b`, `c`; a leading component above 31
selects the `Y-M-D` reading, otherwise V8 reads `M-D-Y`; the month must lie
in 1..12 and the day in 1..31 (day overflow rollover, month names, time
components and timezone handling are outside the model, and ISO strings are
formatted assuming the process runs at a non-negative UTC offset, as the
deployment does).  Every other string is modelled as an invalid date. -/
def nativeDateParse (s : String) : Option YMD :=
  let parts := splitByAux (fun c => c == '-' || c == '/') s.toList []
  match parts with
  | [pa, pb, pc] =>
    match natOfDigits pa.toList, natOfDigits pb.toList, natOfDigits pc.toList with
    | some a, some b, some c =>
      let d : YMD := if a > 31 then ⟨a, b, c⟩ else ⟨fixupYear c, a, b⟩
      if 1 ≤ d.month ∧ d.month ≤ 12 ∧ 1 ≤ d.day ∧ d.day ≤ 31 then some d
      else none
    | _, _, _ => none
  | _ => none

/-- Takes exactly `w` leading decimal digits from `cs`, returning their value
and the remaining characters. -/
def takeDigits (w : Nat) (cs : List Char) : Option (Nat × List Char) :=
  let ds := cs.take w
  if ds.length = w ∧ ds.all Char.isDigit then
    some ((natOfDigits ds).getD 0, cs.drop w)
  else none

/-- One token of the six `date-fns` format strings used by the builder. -/
inductive FTok where
  | year
  | month2
  | day2
  | lit (c : Char)
  deriving DecidableEq, Repr

/-- Token lists for the six format strings in `possibleFormats`. -/
def fmtToks (fmt : String) : List FTok :=
  match fmt with
  | "yyyy-MM-dd" => [.year, .lit '-', .month2, .lit '-', .day2]
  | "dd-MM-yyyy" => [.day2, .lit '-', .month2, .lit '-', .year]
  | "MM-dd-yyyy" => [.month2, .lit '-', .day2, .lit '-', .year]
  | "yyyy/MM/dd" => [.year, .lit '/', .month2, .lit '/', .day2]
  | "dd/MM/yyyy" => [.day2, .lit '/', .month2, .lit '/', .year]
  | "MM/dd/yyyy" => [.month2, .lit '/', .day2, .lit '/', .year]
  | _ => []

/-- Runs a token list over the characters of the input, accumulating the
year/month/day fields read so far. -/
def runToks : List FTok → List Char → Nat → Nat → Nat → Option YMD
  | [], [], y, m, d => some ⟨y, m, d⟩
  | [], _ :: _, _, _, _ => none
  | .year :: rest, cs, _, m, d =>
    match takeDigits 4 cs with
    | some (v, cs') => runToks rest cs' v m d
    | none => none
  | .month2 :: rest, cs, y, _, d =>
    match takeDigits 2 cs with
    | some (v, cs') => runToks rest cs' y v d
    | none => none
  | .day2 :: rest, cs, y, m, _ =>
    match takeDigits 2 cs with
    | some (v, cs') => runToks rest cs' y m v
    | none => none
  | .lit c :: rest, c' :: cs, y, m, d =>
    if c = c' then runToks rest cs y m d else none
  | .lit _ :: _, [], _, _, _ => none

/-- Models `date-fns` `parse(input, fmt, new Date())` followed by the
`isValid` check, for the six explicit formats the builder tries: the padded
tokens `MM`/`dd` consume exactly two digits, `yyyy` exactly four, literal
separators must match, the whole input must be consumed, and the parsed
triple must denote a real calendar date (month 1..12, day within the
month's length under the leap-year rule). -/
def parseFmt (input : String) (fmt : String) : Option YMD :=
  match runToks (fmtToks fmt) input.toList 0 0 0 with
  | some d =>
    if 1 ≤ d.month ∧ d.month ≤ 12 ∧ 1 ≤ d.day ∧ d.day ≤ daysInMonth d.year d.month
    then some d
    else none
  | none => none

/-- The ordered fallback format list of `formatDateToISO`. -/
def possibleFormats : List String :=
  ["yyyy-MM-dd", "dd-MM-yyyy", "MM-dd-yyyy", "yyyy/MM/dd", "dd/MM/yyyy", "MM/dd/yyyy"]

/-- Embeds `formatDateToISO`: first the native `new Date(inputDate)` parse
(reformatted to `yyyy-MM-dd` when valid), then the ordered `date-fns`
fallback formats, returning the first success and `null` (here `none`) when
everything fails. -/
def formatDateToISO (inputDate : String) : Option String :=
  match nativeDateParse inputDate with
  | some d => some (formatYMD d)
  | none =>
    possibleFormats.findSome? (fun fmt => (parseFmt inputDate fmt).map formatYMD)

/-- The symbol table of `romanToInt`; characters outside the table are
`undefined` in the JavaScript map. -/
def romanMap (c : Char) : Option Int :=
  match c with
  | 'I' => some 1
  | 'V' => some 5
  | 'X' => some 10
  | 'L' => some 50
  | 'C' => some 100
  | 'D' => some 500
  | 'M' => some 1000
  | _ => none

/-- One iteration of the `romanToInt` loop: `current < next` subtracts,
otherwise adds; an `undefined` current symbol turns the running total into
`NaN` (`undefined < next` is false and `total += undefined` is `NaN`), and a
`NaN` total stays `NaN`. -/
def romanStep (acc : Option Int) (cur : Option Int) (next : Int) : Option Int :=
  match cur with
  | none => none
  | some c => acc.map (fun t => if c < next then t - c else t + c)

/-- The scan of `romanToInt` over the remaining characters, threading the
running total (`none` models `NaN`). -/
def romanScan : List Char → Option Int → Option Int
  | [], acc => acc
  | c :: rest, acc =>
    let next : Int :=
      match rest.head? with
      | some c2 => (romanMap c2).getD 0
      | none => 0
    romanScan rest (romanStep acc (romanMap c) next)

/-- Embeds `romanToInt`: the left-to-right subtractive-pair scan starting
from a zero total.  The result is an integer, or `none` for the `NaN`
produced when a character is outside the symbol table. -/
def romanToInt (s : String) : Option Int :=
  romanScan s.toList (some 0)

/-- Embeds the builder's `getValue(vc, pathValue)`: a falsy `pathValue`
(absent configuration entry or empty string) yields `null`; otherwise the
dotted path is split on `.` and folded over the content, stepping to
`acc[part]` only while `acc` is truthy and `acc[part]` is not `undefined`,
and collapsing to `null` otherwise. -/
def getValue (vc : VC) (pathValue : Option String) : JSVal :=
  match pathValue with
  | none => JSVal.null
  | some p =>
    if p = "" then JSVal.null
    else
      (jsSplitChar '.' p).foldl
        (fun acc part =>
          if truthy acc ∧ ¬ (jsIndex acc part).isUndef then jsIndex acc part
          else JSVal.null)
        vc.content

/-- Embeds `handleNameFields` (present in the source but no longer invoked
by `getFieldValueFromVC`, where the call is commented out): the full name is
resolved via the configured `name` path, split on single spaces, and the
requested sub-field is selected — first token, middle token only for exactly
three tokens, last token for two or more, and `fatherName` mirroring the
middle token.  A truthy non-string name value would make `fullname.split`
raise a `TypeError`. -/
def handleNameFields (vc : VC) (vcPaths : List (String × String)) (field : String) :
    Except String JSVal :=
  let fullname := getValue vc (vcPaths.lookup "name")
  if ¬ truthy fullname then .ok JSVal.null
  else
    match fullname with
    | .str s =>
      let nameParts := jsSplitChar ' ' s
      let firstName := (nameParts.get? 0).elim JSVal.null JSVal.str
      let middleName :=
        if nameParts.length = 3 then (nameParts.get? 1).elim JSVal.null JSVal.str
        else JSVal.null
      let lastName :=
        if nameParts.length ≥ 2 then
          (nameParts.get? (nameParts.length - 1)).elim JSVal.null JSVal.str
        else JSVal.null
      match field with
      | "firstName" => .ok firstName
      | "middleName" => .ok middleName
      | "lastName" => .ok lastName
      | "fatherName" => .ok middleName
      | _ => .ok JSVal.null
    | _ => .error "TypeError: fullname.split is not a function"

/-- Embeds `handleGenderField` (its call site in `getFieldValueFromVC` is
commented out in the source): `M`/`Male` map to `male`, `F`/`Female` to
`female`, anything else to `null`. -/
def handleGenderField (vc : VC) (pathValue : Option String) : JSVal :=
  match getValue vc pathValue with
  | .str "M" => JSVal.str "male"
  | .str "Male" => JSVal.str "male"
  | .str "F" => JSVal.str "female"
  | .str "Female" => JSVal.str "female"
  | _ => JSVal.null

/-- Embeds `handleClassField`: a falsy extracted value yields `null`;
otherwise the value is run through `romanToInt`, whose result is returned
when it is a nonzero integer and replaced by the original raw value when the
conversion is falsy (`0` or `NaN`).  A non-string truthy value has an
`undefined` `length` in JavaScript, so the roman scan performs no iterations
and totals `0`, returning the original value. -/
def handleClassField (vc : VC) (pathValue : Option String) : Except String JSVal :=
  let value := getValue vc pathValue
  if ¬ truthy value then .ok JSVal.null
  else
    match value with
    | .str s =>
      match romanToInt s with
      | some n => if n = 0 then .ok value else .ok (JSVal.num (.int n))
      | none => .ok value
    | _ => .ok value

/-- Character class `[a-z0-9]` after lowercasing, as used by the disability
slug. -/
def isSlugChar (c : Char) : Bool :=
  ('a' ≤ c ∧ c ≤ 'z') ∨ c.isDigit

/-- Collapses consecutive underscores, the effect of replacing every run of
non-alphanumerics with a single `_` via the global regex. -/
def collapseUnderscores : List Char → List Char
  | [] => []
  | [c] => [c]
  | c :: d :: rest =>
    if c = '_' ∧ d = '_' then collapseUnderscores (d :: rest)
    else c :: collapseUnderscores (d :: rest)

/-- Embeds `handleDisabilityTypeField`: trim, lowercase, then replace every
run of characters outside `[a-z0-9]` with a single `_`.  A truthy non-string
value would make `value.trim` raise a `TypeError`. -/
def handleDisabilityTypeField (vc : VC) (pathValue : Option String) :
    Except String JSVal :=
  let value := getValue vc pathValue
  if ¬ truthy value then .ok JSVal.null
  else
    match value with
    | .str s =>
      let lowered := (jsToLower (jsTrim s)).toList
      let replaced := lowered.map (fun c => if isSlugChar c then c else '_')
      .ok (JSVal.str (String.mk (collapseUnderscores replaced)))
    | _ => .error "TypeError: value.trim is not a function"

/-- Embeds `handleDobValue`: a falsy extracted value yields `null`,
otherwise the value goes through `formatDateToISO` (a `null` parse result is
returned as-is).  A non-string truthy value would reach `new Date(number)`
timestamp parsing, which the engine's date fields never carry and which is
outside this model. -/
def handleDobValue (vc : VC) (pathValue : Option String) : Except String JSVal :=
  let value := getValue vc pathValue
  if ¬ truthy value then .ok JSVal.null
  else
    match value with
    | .str s => .ok ((formatDateToISO s).elim JSVal.null JSVal.str)
    | _ => .error "model limitation: non-string date input"

/-- Removes commas, spaces and apostrophes, the effect of
`value.replace(/[, ']/g, '')`. -/
def stripIncomeChars (s : String) : String :=
  String.mk (s.toList.filter (fun c => c ≠ ',' ∧ c ≠ ' ' ∧ c ≠ '\''))

/-- Embeds `handleIncomeValue`: a strictly-`null` extracted value yields
`null`; a number is kept only when it is neither `NaN` nor negative (else
`null` with a warning); a string is stripped of commas, spaces and
apostrophes and handed to `Number()` — the digit-format validation in the
source is commented out, so the conversion result is returned even when it
is `NaN`.  Any other truthy value would make `value.replace` raise a
`TypeError`. -/
def handleIncomeValue (vc : VC) (pathValue : Option String) : Except String JSVal :=
  let value := getValue vc pathValue
  match value with
  | .null => .ok JSVal.null
  | .num .nan => .ok JSVal.null
  | .num (.int i) => if i < 0 then .ok JSVal.null else .ok (JSVal.num (.int i))
  | .str s => .ok (JSVal.num (strToNumber (stripIncomeChars s)))
  | _ => .error "TypeError: value.replace is not a function"

/-- Embeds `getFieldValueFromVC`, with the per-doc-type field→path
configuration (the `vcPaths/<docType>.json` files, parsed) supplied as the
map `vcPathsCfg`.  The name-fields and gender branches are commented out in
the source, so every field other than the four specially handled ones falls
through to the direct `getValue` lookup. -/
def getFieldValueFromVC (vcPathsCfg : String → List (String × String)) (vc : VC)
    (field : String) : Except String JSVal :=
  let vcPaths := vcPathsCfg vc.docType
  if field = "disabilityType" then handleDisabilityTypeField vc (vcPaths.lookup field)
  else if field = "class" then handleClassField vc (vcPaths.lookup field)
  else if field = "dob" then handleDobValue vc (vcPaths.lookup field)
  else if field = "annualIncome" then handleIncomeValue vc (vcPaths.lookup field)
  else .ok (getValue vc (vcPaths.lookup field))

/-- The predicate of `vcs.find(vc => vc.docType === docType)`. -/
def byDocType (docType : String) (vc : VC) : Bool :=
  vc.docType == docType

/-- The inner per-field loop of `buildProfile`, threading the mutable
`value` variable: candidates are scanned in priority order; a candidate with
no matching VC is skipped; for the first matching VC of a candidate, the
extracted value replaces the running `value`, and a truthy result commits
immediately with that doc type as the sole provenance entry. -/
def resolveFieldLoop (vcPathsCfg : String → List (String × String)) (vcs : List VC)
    (field : String) : List String → JSVal → Except String (JSVal × List String)
  | [], value => .ok (value, [])
  | docType :: rest, value =>
    match vcs.find? (byDocType docType) with
    | none => resolveFieldLoop vcPathsCfg vcs field rest value
    | some vc => do
      let v ← getFieldValueFromVC vcPathsCfg vc field
      if truthy v then .ok (v, [vc.docType])
      else resolveFieldLoop vcPathsCfg vcs field rest v

/-- Embeds `buildProfile`, with the field→candidate-doc-type priority
configuration (`configFiles/vcArray.json`, parsed, in key order) supplied as
`profileFields`: every configured field is resolved independently by
`resolveFieldLoop` starting from a `null` value, producing the
`userProfile` field map and the `validationData` provenance map. -/
def buildProfile (profileFields : List (String × List String))
    (vcPathsCfg : String → List (String × String)) (vcs : List VC) :
    Except String (List (String × JSVal) × List (String × List String)) :=
  match profileFields with
  | [] => .ok ([], [])
  | (field, vcArray) :: rest => do
    let (value, docsUsed) ← resolveFieldLoop vcPathsCfg vcs field vcArray JSVal.null
    let (ups, vds) ← buildProfile rest vcPathsCfg vcs
    .ok ((field, value) :: ups, (field, docsUsed) :: vds)

/-- Takes exactly `n` leading decimal digits as a raw character run,
returning the run and the remaining characters. -/
def takeDigitsRun (n : Nat) (cs : List Char) : Option (List Char × List Char) :=
  let ds := cs.take n
  if ds.length = n ∧ ds.all Char.isDigit then some (ds, cs.drop n) else none

/-- Matches one of the validator's date regexes at the current position:
`a` digits, the separator, `b` digits, the separator, `d` digits, returning
the three capture groups.  The regexes are unanchored, so trailing input is
allowed. -/
def matchDatePatAt (a b d : Nat) (sep : Char) (cs : List Char) :
    Option (String × String × String) :=
  match takeDigitsRun a cs with
  | none => none
  | some (g1, r1) =>
    match r1 with
    | [] => none
    | c1 :: r1' =>
      if c1 = sep then
        match takeDigitsRun b r1' with
        | none => none
        | some (g2, r2) =>
          match r2 with
          | [] => none
          | c2 :: r2' =>
            if c2 = sep then
              match takeDigitsRun d r2' with
              | none => none
              | some (g3, _) => some (String.mk g1, String.mk g2, String.mk g3)
            else none
      else none

/-- Scans the input left to right for the first position where the date
pattern matches, as `String.prototype.match` does for an unanchored
regex. -/
def scanForPat (a b d : Nat) (sep : Char) : List Char → Option (String × String × String)
  | [] => none
  | c :: rest =>
    match matchDatePatAt a b d sep (c :: rest) with
    | some r => some r
    | none => scanForPat a b d sep rest

/-- Embeds the validator's `parseToStandardFormat`: the four regexes are
tried in order — `DD-MM-YYYY` (reassembled as `YYYY-MM-DD`), `YYYY-MM-DD`
(the matched substring is returned as-is), `DD/MM/YYYY` (reassembled with
dashes), and `YYYY/MM/DD`, whose branch also returns the matched substring
as-is, slashes included.  No match yields `null`. -/
def parseToStandardFormat (dateStr : String) : Option String :=
  let cs := dateStr.toList
  match scanForPat 2 2 4 '-' cs with
  | some (day, month, year) => some (year ++ "-" ++ month ++ "-" ++ day)
  | none =>
    match scanForPat 4 2 2 '-' cs with
    | some (y, m, d) => some (y ++ "-" ++ m ++ "-" ++ d)
    | none =>
      match scanForPat 2 2 4 '/' cs with
      | some (day, month, year) => some (year ++ "-" ++ month ++ "-" ++ day)
      | none =>
        match scanForPat 4 2 2 '/' cs with
        | some (y, m, d) => some (y ++ "/" ++ m ++ "/" ++ d)
        | none => none

/-- Embeds the validator's `getAttributeValue`: only VCs whose `docFormat`
is `json` are traversed — the fold steps to `acc[part]` while `acc` is
truthy and otherwise keeps the falsy accumulator; any other `docFormat`
falls off the function, returning `undefined`.  An `undefined` path (the
doc-type file lacking an entry for the attribute) makes `pathValue.split`
raise a `TypeError`. -/
def getAttributeValue (vc : VC) (pathValue : Option String) : Except String JSVal :=
  if vc.docFormat == some "json" then
    match pathValue with
    | none => .error "TypeError: pathValue.split is not a function"
    | some p =>
      .ok ((jsSplitChar '.' p).foldl
        (fun acc part => if truthy acc then jsIndex acc part else acc) vc.content)
  else .ok JSVal.undef

/-- JavaScript `value.toLowerCase()`: defined for strings, a `TypeError` on
every other receiver (`undefined`, `null`, numbers, objects). -/
def jsToLowerStr : JSVal → Except String String
  | .str s => .ok (jsToLower s)
  | _ => .error "TypeError: toLowerCase is not a function"

/-- One `(vcType, format)` entry of a `docToFieldMaps/<docType>.json`
configuration file: the variant identifiers and the attribute→dotted-path
map. -/
structure VariantCfg where
  vcType : String
  format : String
  fields : List (String × String)

/-- The variant-matching lookup of `matchAttributeValue`:
`vcs.find(vc => vc.vcType === obj.vcType && vc.docFormat === obj.format &&
vc.docType === fileName)`. -/
def findVariantVC (vcs : List VC) (fileName : String) (obj : VariantCfg) : Option VC :=
  vcs.find? (fun vc =>
    vc.vcType == some obj.vcType ∧ vc.docFormat == some obj.format ∧
      vc.docType == fileName)

/-- The three name sub-attributes that receive special treatment in the
validator. -/
def nameAttrs : List String := ["firstName", "middleName", "lastName"]

/-- The body `matchAttributeValue` runs once a VC matching the current
variant is found: path selection (name sub-fields of a `digilocker` VC use
the composite `name` path), attribute extraction, then the comparison
policy — categorical equivalence table first (a missing table entry for the
profile's lowercased value, or a non-string extracted value, raises a
`TypeError`), then the positional name split for `digilocker` VCs, then the
regex-normalised date comparison for `dob`, and loose equality against the
stored profile value by default. -/
def evalFoundVC (fieldValues : List (String × List (String × List String)))
    (namePos : List (String × List (String × Nat)))
    (obj : VariantCfg) (vc : VC) (profileAttribute : String)
    (userProfile : List (String × JSVal)) : Except String Bool := do
  let pathValue : Option String :=
    if nameAttrs.contains profileAttribute ∧ vc.vcType == some "digilocker" then
      obj.fields.lookup "name"
    else obj.fields.lookup profileAttribute
  let attributeValue ← getAttributeValue vc pathValue
  match fieldValues.lookup profileAttribute with
  | some tbl => do
    let attrKey ← jsToLowerStr ((userProfile.lookup profileAttribute).getD JSVal.undef)
    match tbl.lookup attrKey with
    | none => .error "TypeError: Cannot read properties of undefined (reading includes)"
    | some synonyms => do
      let av ← jsToLowerStr attributeValue
      .ok (synonyms.contains av)
  | none => do
    let attributeValue2 ←
      if nameAttrs.contains profileAttribute ∧ vc.vcType == some "digilocker" then
        match attributeValue with
        | .str s =>
          let nameValues := jsSplitChar ' ' s
          match namePos.lookup vc.docType with
          | none => .error "TypeError: Cannot read properties of undefined"
          | some m =>
            match m.lookup profileAttribute with
            | none => .ok JSVal.undef
            | some i => .ok ((nameValues.get? i).elim JSVal.undef JSVal.str)
        | _ => .error "TypeError: attributeValue.split is not a function"
      else .ok attributeValue
    if profileAttribute = "dob" then
      match attributeValue2 with
      | .str s =>
        match parseToStandardFormat s with
        | some standardDate =>
          .ok (match (userProfile.lookup profileAttribute).getD JSVal.undef with
               | .str ps => ps == standardDate
               | _ => false)
        | none => .ok false
      | _ => .error "TypeError: dateStr.match is not a function"
    else
      .ok (jsLooseEq attributeValue2 ((userProfile.lookup profileAttribute).getD JSVal.undef))

/-- The loop of `matchAttributeValue` over the entries of the doc type's
configuration file: for each `(vcType, format)` variant in file order, a
matching VC makes the loop return the comparison outcome of `evalFoundVC`
immediately; when no variant finds a VC the result is `false`. -/
def matchAttributeValueLoop (fieldValues : List (String × List (String × List String)))
    (namePos : List (String × List (String × Nat))) (fileName : String)
    (profileAttribute : String) (vcs : List VC) (userProfile : List (String × JSVal)) :
    List VariantCfg → Except String Bool
  | [] => .ok false
  | obj :: rest =>
    match findVariantVC vcs fileName obj with
    | none =>
      matchAttributeValueLoop fieldValues namePos fileName profileAttribute vcs
        userProfile rest
    | some vc => evalFoundVC fieldValues namePos obj vc profileAttribute userProfile

/-- Embeds `matchAttributeValue`, with the parsed configuration files
supplied as parameters: `fieldValues` is `fieldValues.json`, `namePos` is
`nameFieldsPosition.json`, and `docMaps` maps a doc-type file name to the
parsed content of `docToFieldMaps/<fileName>.json`. -/
def matchAttributeValue (fieldValues : List (String × List (String × List String)))
    (namePos : List (String × List (String × Nat)))
    (docMaps : String → List VariantCfg) (fileName : String)
    (profileAttribute : String) (vcs : List VC)
    (userProfile : List (String × JSVal)) : Except String Bool :=
  matchAttributeValueLoop fieldValues namePos fileName profileAttribute vcs userProfile
    (docMaps fileName)

/-- One per-attribute verification verdict of the validator (the source's
record field `attribute` is a Lean keyword, hence `attrName` here). -/
structure VerificationResult where
  attrName : String
  verified : Bool
  docsUsed : List String
  deriving DecidableEq, Repr

/-- The inner loop of `matchUserData` over an attribute's candidate doc-type
files: every candidate is evaluated (no early stop), `verified` is the
disjunction of the outcomes, and each matching file name is appended to
`docsUsed` in candidate order. -/
def matchFilesLoop (fieldValues : List (String × List (String × List String)))
    (namePos : List (String × List (String × Nat)))
    (docMaps : String → List VariantCfg) (profileAttribute : String) (vcs : List VC)
    (userProfile : List (String × JSVal)) :
    List String → Except String (Bool × List String)
  | [] => .ok (false, [])
  | fileName :: rest => do
    let matched ← matchAttributeValue fieldValues namePos docMaps fileName
      profileAttribute vcs userProfile
    let (verified, docsUsed) ← matchFilesLoop fieldValues namePos docMaps
      profileAttribute vcs userProfile rest
    .ok (matched || verified, if matched then fileName :: docsUsed else docsUsed)

/-- The loop of `matchUserData` over the keys of the supplied profile,
carrying the full profile map for lookups: an attribute missing from the
validator configuration makes the `for...of` over `undefined` raise a
`TypeError`; otherwise the attribute's candidate files are scanned by
`matchFilesLoop` and one `VerificationResult` is appended. -/
def matchUserDataLoop (config : List (String × List String))
    (fieldValues : List (String × List (String × List String)))
    (namePos : List (String × List (String × Nat)))
    (docMaps : String → List VariantCfg) (vcs : List VC)
    (userProfile : List (String × JSVal)) :
    List (String × JSVal) → Except String (List VerificationResult)
  | [] => .ok []
  | (profileAttribute, _) :: rest =>
    match config.lookup profileAttribute with
    | none => .error "TypeError: files is not iterable"
    | some files => do
      let (verified, docsUsed) ← matchFilesLoop fieldValues namePos docMaps
        profileAttribute vcs userProfile files
      let tail ← matchUserDataLoop config fieldValues namePos docMaps vcs
        userProfile rest
      .ok (⟨profileAttribute, verified, docsUsed⟩ :: tail)

/-- Embeds `matchUserData`, with the attribute→candidate-doc-type
configuration (`config.json`, parsed) supplied as `config`: every attribute
present as a key on the supplied profile is verified in key order. -/
def matchUserData (config : List (String × List String))
    (fieldValues : List (String × List (String × List String)))
    (namePos : List (String × List (String × Nat)))
    (docMaps : String → List VariantCfg)
    (userProfileInfo : List (String × JSVal)) (vcs : List VC) :
    Except String (List VerificationResult) :=
  matchUserDataLoop config fieldValues namePos docMaps vcs userProfileInfo
    userProfileInfo

/-!
Concrete instances used by the theorems below: small VC sets and
configuration tables exercising the engine on the inputs the claims talk
about.
-/

/-- Modelled from the spec: the builder's per-doc-type field→path
configuration file for `aadhaar` (`vcPaths/aadhaar.json` is not among the
embedded sources).  Per the configuration contract, the composite name
fields need only the single `name` path per candidate doc type, so the
table carries exactly that entry. -/
def aadhaarPaths : List (String × String) := [("name", "credentialSubject.name")]

/-- Per-doc-type path configuration exposing `aadhaarPaths` for `aadhaar`
and nothing for other doc types. -/
def aadhaarPathsCfg : String → List (String × String) := fun d =>
  if d = "aadhaar" then aadhaarPaths else []

/-- The four name sub-fields, each sourced from `aadhaar` alone, as the
field→candidate-doc-type priority configuration for the name scenario. -/
def nameFieldsCfg : List (String × List String) :=
  [("firstName", ["aadhaar"]), ("middleName", ["aadhaar"]),
   ("lastName", ["aadhaar"]), ("fatherName", ["aadhaar"])]

/-- An `aadhaar` VC whose configured name path resolves to
`"Ravi Kumar Singh"`. -/
def vcAadhaar : VC :=
  { docType := "aadhaar"
    content := .obj [("credentialSubject", .obj [("name", .str "Ravi Kumar Singh")])] }

/-- A VC of doc type `d0` whose content lacks the configured `state` path,
so extraction yields `null`. -/
def vcStateNone : VC := { docType := "d0", content := .obj [] }

/-- A VC of doc type `d1` carrying `"Kerala"` at the `state` path. -/
def vcStateKerala : VC :=
  { docType := "d1", content := .obj [("content", .obj [("state", .str "Kerala")])] }

/-- A VC of doc type `d2` carrying `"Goa"` at the `state` path. -/
def vcStateGoa : VC :=
  { docType := "d2", content := .obj [("content", .obj [("state", .str "Goa")])] }

/-- A second VC of doc type `d1`, with different content, used to show that
later VCs of an already-seen doc type are never consulted. -/
def vcStateKeralaDup : VC :=
  { docType := "d1", content := .obj [("content", .obj [("state", .str "Punjab")])] }

/-- Builder path configuration giving every doc type the `state` field at
`content.state`. -/
def statePathsCfg : String → List (String × String) := fun _ =>
  [("state", "content.state")]

/-- A VC whose income path holds the string `"abc"`, which `Number()`
cannot parse. -/
def vcIncomeAbc : VC := { docType := "dI", content := .obj [("income", .str "abc")] }

/-- A VC whose income path holds the lakh-separated string `"1,20,000"`. -/
def vcIncomeLakh : VC :=
  { docType := "dI", content := .obj [("income", .str "1,20,000")] }

/-- A VC whose income path holds the number `-5`. -/
def vcIncomeNeg : VC :=
  { docType := "dI", content := .obj [("income", .num (.int (-5)))] }

/-- A VC whose income path holds the number `NaN`. -/
def vcIncomeNaN : VC :=
  { docType := "dI", content := .obj [("income", .num .nan)] }

/-- A marksheet VC whose class path holds the plain numeral string `"5"`,
which is not a recognised roman numeral. -/
def vcClassFive : VC := { docType := "marksheet", content := .obj [("class", .str "5")] }

/-- Validator-side VC of doc type `doc1`, variant `(pan, json)`, whose state
value is `"Kerala"`. -/
def vcValKerala : VC :=
  { docType := "doc1", vcType := some "pan", docFormat := some "json"
    content := .obj [("content", .obj [("state", .str "Kerala")])] }

/-- Validator-side VC of doc type `doc2`, variant `(ration, json)`, whose
state value is `"Karnataka"`. -/
def vcValKarnataka : VC :=
  { docType := "doc2", vcType := some "ration", docFormat := some "json"
    content := .obj [("content", .obj [("state", .str "Karnataka")])] }

/-- The `(pan, json)` path-variant entry for doc type `doc1`. -/
def variantPan : VariantCfg := ⟨"pan", "json", [("state", "content.state")]⟩

/-- The `(ration, json)` path-variant entry for doc type `doc2`. -/
def variantRation : VariantCfg := ⟨"ration", "json", [("state", "content.state")]⟩

/-- A path-variant entry matching no VC in the scenarios below. -/
def variantUnused : VariantCfg := ⟨"absent", "json", [("state", "content.state")]⟩

/-- Validator doc-type→variant configuration for the state scenarios. -/
def stateDocMaps : String → List VariantCfg := fun f =>
  if f = "doc1" then [variantPan]
  else if f = "doc2" then [variantRation]
  else []

/-- Validator attribute→candidate-doc-type configuration for `state`. -/
def stateConfig : List (String × List String) := [("state", ["doc1", "doc2"])]

/-- A stored profile whose `state` is `"Karnataka"` (matched by `doc2` but
not by `doc1`). -/
def profileKarnataka : List (String × JSVal) := [("state", .str "Karnataka")]

/-- A stored profile whose `state` is `"Goa"` (matched by no VC). -/
def profileGoa : List (String × JSVal) := [("state", .str "Goa")]

/-- Categorical equivalence table holding synonyms only for the profile
value `male`, so the value `female` has no entry. -/
def genderFieldValues : List (String × List (String × List String)) :=
  [("gender", [("male", ["M", "Male"])])]

/-- The `(aadhaar, json)` path-variant entry for the gender scenario. -/
def variantGender : VariantCfg := ⟨"aadhaar", "json", [("gender", "content.gender")]⟩

/-- Validator doc-type→variant configuration for the gender scenario. -/
def genderDocMaps : String → List VariantCfg := fun _ => [variantGender]

/-- A VC whose gender path resolves to `"F"`. -/
def vcGenderF : VC :=
  { docType := "doc1", vcType := some "aadhaar", docFormat := some "json"
    content := .obj [("content", .obj [("gender", .str "F")])] }

/-- A stored profile whose `gender` is `"Female"`, lowercasing to a key the
equivalence table does not contain. -/
def profileFemale : List (String × JSVal) := [("gender", .str "Female")]

/-- A validator-side VC of doc type `doc1`, variant `(pan, json)`, whose
content lacks the configured `state` path. -/
def vcValMissingState : VC :=
  { docType := "doc1", vcType := some "pan", docFormat := some "json"
    content := .obj [("content", .obj [])] }

/-- Whether a candidate doc-type file produced a match for the attribute:
the boolean the validator accumulates per candidate. -/
def isMatched (fieldValues : List (String × List (String × List String)))
    (namePos : List (String × List (String × Nat)))
    (docMaps : String → List VariantCfg) (profileAttribute : String) (vcs : List VC)
    (userProfile : List (String × JSVal)) (fileName : String) : Bool :=
  match matchAttributeValue fieldValues namePos docMaps fileName profileAttribute vcs
      userProfile with
  | .ok true => true
  | _ => false

/-! Theorems. -/

/-- A VC found by `byDocType d` has doc type `d`. -/
theorem find?_byDocType_docType {vcs : List VC} {d : String} {vc : VC}
    (h : vcs.find? (byDocType d) = some vc) : vc.docType = d := by
  have hp := List.find?_some h
  simpa [byDocType] using hp

/-- Claim C3 (counterexample): the date transform maps `"08-05-2003"` to `"2003-08-05"` — the
native `new Date` parse fires first and reads the string as MM-DD-YYYY, so
the ordered fallback list (which would read it as DD-MM-YYYY) is never
consulted; this refutes the claimed output `"2003-05-08"`. -/
theorem formatDateToISO_ddmmyyyy_counterexample :
    formatDateToISO "08-05-2003" = some "2003-08-05" ∧
      (some "2003-08-05" : Option String) ≠ some "2003-05-08" :=
  ⟨by decide, by decide⟩

/-- Claim C3 (amended): `"08-05-2003"` maps to `"2003-08-05"` (the native parse
captures it as MM-DD-YYYY before the fallback list can treat it as
DD-MM-YYYY), `"2003/05/08"` maps to `"2003-05-08"`, and any string that
neither the native calendar-date parse nor any of the six listed formats
can parse maps to `null`. -/
theorem formatDateToISO_spec :
    formatDateToISO "08-05-2003" = some "2003-08-05" ∧
    formatDateToISO "2003/05/08" = some "2003-05-08" ∧
    ∀ s : String, nativeDateParse s = none →
      (∀ fmt ∈ possibleFormats, parseFmt s fmt = none) →
      formatDateToISO s = none := by
  refine ⟨by decide, by decide, ?_⟩
  intro s h1 h2
  have e1 := h2 "yyyy-MM-dd" (by simp [possibleFormats])
  have e2 := h2 "dd-MM-yyyy" (by simp [possibleFormats])
  have e3 := h2 "MM-dd-yyyy" (by simp [possibleFormats])
  have e4 := h2 "yyyy/MM/dd" (by simp [possibleFormats])
  have e5 := h2 "dd/MM/yyyy" (by simp [possibleFormats])
  have e6 := h2 "MM/dd/yyyy" (by simp [possibleFormats])
  simp [formatDateToISO, h1, possibleFormats, List.findSome?_cons, e1, e2, e3, e4, e5, e6]

/-- Claim C3 witness: a string no parser accepts maps to `null`. -/
theorem formatDateToISO_spec_witness : formatDateToISO "not a date" = none :=
  formatDateToISO_spec.2.2 "not a date" (by decide)
    (by
      intro fmt hf
      simp only [possibleFormats, List.mem_cons, List.not_mem_nil, or_false] at hf
      rcases hf with rfl | rfl | rfl | rfl | rfl | rfl <;> decide)

/-- Claim C6 (counterexample): the income transform maps the unparseable string `"abc"` to `NaN`,
not `null` — the digit-format validation is commented out, so `Number()`'s
`NaN` is returned as the field value; this refutes the claim that every
unparseable numeric input resolves to `null`. -/
theorem handleIncomeValue_nan_counterexample :
    handleIncomeValue vcIncomeAbc (some "income") = .ok (JSVal.num .nan) ∧
      JSVal.num .nan ≠ JSVal.null :=
  ⟨rfl, fun h => JSVal.noConfusion h⟩

/-- Claim C6 (amended): the income transform maps `"1,20,000"` to `120000`, the
number `-5` to `null`, the number `NaN` to `null`, and a string `Number()`
cannot parse (such as `"abc"`) to `NaN` — not `null` — without raising,
because the explicit digit-format check in the source is disabled. -/
theorem handleIncomeValue_spec :
    handleIncomeValue vcIncomeLakh (some "income") = .ok (JSVal.num (.int 120000)) ∧
    handleIncomeValue vcIncomeNeg (some "income") = .ok JSVal.null ∧
    handleIncomeValue vcIncomeNaN (some "income") = .ok JSVal.null ∧
    handleIncomeValue vcIncomeAbc (some "income") = .ok (JSVal.num .nan) :=
  ⟨rfl, rfl, rfl, rfl⟩

/-- Claim C7: `romanToInt` computes the standard subtractive-pair values on
`"IV"`, `"IX"` and `"XII"`, and the class transform returns the original
raw value unchanged whenever the roman conversion of a non-empty extracted
string is not a recognised roman numeral — the source's falsy test
`!intValue`, which holds for a conversion total of `0` and for the `NaN`
produced by symbols outside the table. -/
theorem romanToInt_and_class_spec :
    romanToInt "IV" = some 4 ∧ romanToInt "IX" = some 9 ∧
    romanToInt "XII" = some 12 ∧
    ∀ (vc : VC) (p : Option String) (s : String),
      getValue vc p = JSVal.str s → s ≠ "" →
      (romanToInt s = some 0 ∨ romanToInt s = none) →
      handleClassField vc p = .ok (JSVal.str s) := by
  refine ⟨by decide, by decide, by decide, ?_⟩
  intro vc p s hget hne hz
  have hs : (s != "") = true := by simpa using hne
  rcases hz with hz | hz <;> simp [handleClassField, hget, truthy, hs, hz]

/-- Claim C7 witness: the class value `"5"` is not a roman numeral (its
conversion is `NaN`), so the transform returns it unchanged. -/
theorem romanToInt_and_class_spec_witness :
    handleClassField vcClassFive (some "class") = .ok (JSVal.str "5") :=
  romanToInt_and_class_spec.2.2.2 vcClassFive (some "class") "5" rfl (by decide)
    (Or.inr rfl)

/-- Claim C4 (counterexample): with the name-splitting branch of `getFieldValueFromVC` commented
out in the source, building a profile from an `aadhaar` VC whose configured
name path resolves to `"Ravi Kumar Singh"` leaves `firstName` at `null`
(the direct path lookup finds no `firstName` entry in the aadhaar path
configuration), refuting the claimed `firstName = "Ravi"`. -/
theorem buildProfile_name_counterexample :
    buildProfile nameFieldsCfg aadhaarPathsCfg [vcAadhaar] =
      .ok ([("firstName", JSVal.null), ("middleName", JSVal.null),
            ("lastName", JSVal.null), ("fatherName", JSVal.null)],
           [("firstName", []), ("middleName", []), ("lastName", []),
            ("fatherName", [])]) ∧
      JSVal.null ≠ JSVal.str "Ravi" :=
  ⟨rfl, fun h => JSVal.noConfusion h⟩

/-- Claim C4 (amended): the whitespace name split lives in `handleNameFields`,
which on `"Ravi Kumar Singh"` yields `Ravi`/`Kumar`/`Singh` with
`fatherName` mirroring the middle token — but `getFieldValueFromVC` no
longer invokes it (the call is commented out), so end-to-end the four name
sub-fields fall through to direct path lookup and resolve to `null` under
the aadhaar configuration, which only carries the composite `name` path. -/
theorem handleNameFields_spec :
    handleNameFields vcAadhaar aadhaarPaths "firstName" = .ok (JSVal.str "Ravi") ∧
    handleNameFields vcAadhaar aadhaarPaths "middleName" = .ok (JSVal.str "Kumar") ∧
    handleNameFields vcAadhaar aadhaarPaths "lastName" = .ok (JSVal.str "Singh") ∧
    handleNameFields vcAadhaar aadhaarPaths "fatherName" = .ok (JSVal.str "Kumar") ∧
    buildProfile nameFieldsCfg aadhaarPathsCfg [vcAadhaar] =
      .ok ([("firstName", JSVal.null), ("middleName", JSVal.null),
            ("lastName", JSVal.null), ("fatherName", JSVal.null)],
           [("firstName", []), ("middleName", []), ("lastName", []),
            ("fatherName", [])]) :=
  ⟨rfl, rfl, rfl, rfl, rfl⟩

/-- Binding a successful `Except` computation applies the continuation. -/
@[simp]
theorem exc_ok_bind {α β : Type} (a : α) (f : α → Except String β) :
    (Except.ok a >>= f) = f a := rfl

/-- Binding a failed `Except` computation propagates the error. -/
@[simp]
theorem exc_error_bind {α β : Type} (e : String) (f : α → Except String β) :
    ((Except.error e : Except String α) >>= f) = Except.error e := rfl

/-- Claim C1: in `buildProfile`, if every candidate before `docI` in the
priority list fails to commit (no VC of that doc type, or a falsy extracted
value) and the first VC of doc type `docI` yields a truthy value `v`, then
the field resolves to `v` with `docI` as its sole provenance entry —
whatever candidates follow `docI`, so a later doc type `j` is never
consulted regardless of what it would have produced. -/
theorem buildProfile_priority
    (cfg : String → List (String × String)) (vcs : List VC) (field : String)
    (pre rest : List String) (docI : String) (vc : VC) (v : JSVal)
    (hpre : ∀ d ∈ pre, ∀ vc', vcs.find? (byDocType d) = some vc' →
      ∃ w, getFieldValueFromVC cfg vc' field = .ok w ∧ truthy w = false)
    (hfind : vcs.find? (byDocType docI) = some vc)
    (hval : getFieldValueFromVC cfg vc field = .ok v)
    (htru : truthy v = true) :
    (∀ acc, resolveFieldLoop cfg vcs field (pre ++ docI :: rest) acc = .ok (v, [docI])) ∧
    buildProfile [(field, pre ++ docI :: rest)] cfg vcs =
      .ok ([(field, v)], [(field, [docI])]) := by
  have hdoc : vc.docType = docI := find?_byDocType_docType hfind
  have main : ∀ pre2, (∀ d ∈ pre2, ∀ vc', vcs.find? (byDocType d) = some vc' →
      ∃ w, getFieldValueFromVC cfg vc' field = .ok w ∧ truthy w = false) →
      ∀ acc, resolveFieldLoop cfg vcs field (pre2 ++ docI :: rest) acc = .ok (v, [docI]) := by
    intro pre2
    induction pre2 with
    | nil =>
      intro _ acc
      simp [resolveFieldLoop, hfind, hval, htru, hdoc]
    | cons d pre2 ih =>
      intro h acc
      rcases hfd : vcs.find? (byDocType d) with _ | vc'
      · simpa [resolveFieldLoop, hfd] using
          ih (fun d' hd' => h d' (List.mem_cons_of_mem _ hd')) acc
      · obtain ⟨w, hw, hwf⟩ := h d (List.mem_cons_self _ _) vc' hfd
        simpa [resolveFieldLoop, hfd, hw, hwf] using
          ih (fun d' hd' => h d' (List.mem_cons_of_mem _ hd')) w
  refine ⟨main pre hpre, ?_⟩
  simp [buildProfile, main pre hpre JSVal.null]

/-- Claim C1 witness: with `d0` yielding `null`, `d1` yielding `"Kerala"`
and `d2` yielding `"Goa"`, the field commits to `d1`'s contribution. -/
theorem buildProfile_priority_witness :
    resolveFieldLoop statePathsCfg [vcStateNone, vcStateKerala, vcStateGoa] "state"
      (["d0"] ++ "d1" :: ["d2"]) JSVal.null = .ok (JSVal.str "Kerala", ["d1"]) ∧
    buildProfile [("state", ["d0"] ++ "d1" :: ["d2"])] statePathsCfg
      [vcStateNone, vcStateKerala, vcStateGoa] =
      .ok ([("state", JSVal.str "Kerala")], [("state", ["d1"])]) := by
  have h := buildProfile_priority statePathsCfg [vcStateNone, vcStateKerala, vcStateGoa]
    "state" ["d0"] ["d2"] "d1" vcStateKerala (JSVal.str "Kerala")
    (by
      intro d hd vc' hf
      simp only [List.mem_singleton] at hd
      subst hd
      have hfind0 : [vcStateNone, vcStateKerala, vcStateGoa].find? (byDocType "d0") =
          some vcStateNone := rfl
      rw [hfind0] at hf
      injection hf with hvc
      subst hvc
      exact ⟨JSVal.null, rfl, rfl⟩)
    rfl rfl rfl
  exact ⟨h.1 JSVal.null, h.2⟩

/-- Claim C5: in `buildProfile`, if every candidate doc type of the field
either has no VC in the supplied set or extracts exactly `null` from its
first VC, then the field resolves to `null` and its provenance list is
empty. -/
theorem buildProfile_all_null
    (cfg : String → List (String × String)) (vcs : List VC) (field : String)
    (candidates : List String)
    (h : ∀ d ∈ candidates, ∀ vc, vcs.find? (byDocType d) = some vc →
      getFieldValueFromVC cfg vc field = .ok JSVal.null) :
    resolveFieldLoop cfg vcs field candidates JSVal.null = .ok (JSVal.null, []) ∧
    buildProfile [(field, candidates)] cfg vcs =
      .ok ([(field, JSVal.null)], [(field, [])]) := by
  have main : ∀ cs, (∀ d ∈ cs, ∀ vc, vcs.find? (byDocType d) = some vc →
      getFieldValueFromVC cfg vc field = .ok JSVal.null) →
      resolveFieldLoop cfg vcs field cs JSVal.null = .ok (JSVal.null, []) := by
    intro cs
    induction cs with
    | nil => intro _; rfl
    | cons d rest ih =>
      intro h2
      rcases hfd : vcs.find? (byDocType d) with _ | vc
      · simpa [resolveFieldLoop, hfd] using
          ih (fun d' hd' => h2 d' (List.mem_cons_of_mem _ hd'))
      · have hv := h2 d (List.mem_cons_self _ _) vc hfd
        simpa [resolveFieldLoop, hfd, hv, truthy] using
          ih (fun d' hd' => h2 d' (List.mem_cons_of_mem _ hd'))
  refine ⟨main candidates h, ?_⟩
  simp [buildProfile, main candidates h]

/-- Claim C5 witness: `d0` extracts `null` and `dX` has no VC, so the field
is `null` with empty provenance. -/
theorem buildProfile_all_null_witness :
    resolveFieldLoop statePathsCfg [vcStateNone] "state" ["d0", "dX"] JSVal.null =
      .ok (JSVal.null, []) ∧
    buildProfile [("state", ["d0", "dX"])] statePathsCfg [vcStateNone] =
      .ok ([("state", JSVal.null)], [("state", [])]) :=
  buildProfile_all_null statePathsCfg [vcStateNone] "state" ["d0", "dX"]
    (by
      intro d hd vc hf
      simp only [List.mem_cons, List.not_mem_nil, or_false] at hd
      rcases hd with rfl | rfl
      · have hfind0 : [vcStateNone].find? (byDocType "d0") = some vcStateNone := rfl
        rw [hfind0] at hf
        injection hf with hvc
        subst hvc
        rfl
      · have hfindX : [vcStateNone].find? (byDocType "dX") = none := rfl
        rw [hfindX] at hf
        exact Option.noConfusion hf)

/-- Claim C10: the per-field scan of `buildProfile` consults, for each
candidate doc type, only the first VC of that doc type in input order — the
scan's outcome depends on the VC list solely through `find?` per candidate
(first conjunct), and when that first VC yields a falsy value the scan
proceeds directly to the next candidate, carrying the falsy value, without
consulting any later VC of the same doc type (second conjunct). -/
theorem buildProfile_first_vc_only
    (cfg : String → List (String × String)) (field : String) :
    (∀ (candidates : List String) (acc : JSVal) (vcs vcs' : List VC),
      (∀ d ∈ candidates, vcs.find? (byDocType d) = vcs'.find? (byDocType d)) →
      resolveFieldLoop cfg vcs field candidates acc =
        resolveFieldLoop cfg vcs' field candidates acc) ∧
    (∀ (vcs : List VC) (d : String) (rest : List String) (acc : JSVal) (vc : VC)
      (w : JSVal),
      vcs.find? (byDocType d) = some vc →
      getFieldValueFromVC cfg vc field = .ok w →
      truthy w = false →
      resolveFieldLoop cfg vcs field (d :: rest) acc =
        resolveFieldLoop cfg vcs field rest w) := by
  constructor
  · intro candidates
    induction candidates with
    | nil => intro acc vcs vcs' _; rfl
    | cons d rest ih =>
      intro acc vcs vcs' h
      have hd := h d (List.mem_cons_self _ _)
      have hrest : ∀ d' ∈ rest, vcs.find? (byDocType d') = vcs'.find? (byDocType d') :=
        fun d' hd' => h d' (List.mem_cons_of_mem _ hd')
      simp only [resolveFieldLoop, hd]
      rcases hfd : vcs'.find? (byDocType d) with _ | vc
      · exact ih acc vcs vcs' hrest
      · rcases hg : getFieldValueFromVC cfg vc field with e | w
        · simp [hg]
        · rcases htw : truthy w with _ | _
          · simpa [hg, htw] using ih w vcs vcs' hrest
          · simp [hg, htw]
  · intro vcs d rest acc vc w hfind hval hfalsy
    simp [resolveFieldLoop, hfind, hval, hfalsy]

/-- Claim C10 witness: appending a second `d1` VC does not change the scan,
and a falsy first VC of `d0` sends the scan straight to `d2`. -/
theorem buildProfile_first_vc_only_witness :
    resolveFieldLoop statePathsCfg [vcStateKerala] "state" ["d1"] JSVal.null =
      resolveFieldLoop statePathsCfg [vcStateKerala, vcStateKeralaDup] "state" ["d1"]
        JSVal.null ∧
    resolveFieldLoop statePathsCfg [vcStateNone, vcStateGoa] "state" ["d0", "d2"]
      JSVal.null =
      resolveFieldLoop statePathsCfg [vcStateNone, vcStateGoa] "state" ["d2"]
        JSVal.null :=
  ⟨(buildProfile_first_vc_only statePathsCfg "state").1 ["d1"] JSVal.null
      [vcStateKerala] [vcStateKerala, vcStateKeralaDup]
      (by
        intro d hd
        simp only [List.mem_singleton] at hd
        subst hd
        rfl),
   (buildProfile_first_vc_only statePathsCfg "state").2 [vcStateNone, vcStateGoa]
      "d0" ["d2"] JSVal.null vcStateNone JSVal.null rfl rfl rfl⟩

/-- Claim C9: within a single candidate doc type, the validator
short-circuits across path variants — `matchAttributeValue` returns the
comparison outcome of the first `(vcType, docFormat)` variant in the doc
type's configuration file for which a matching VC exists, and the variants
after it are never consulted (the conclusion holds for every `post`), even
when that first comparison is a mismatch or raises. -/
theorem matchAttributeValue_variant_first
    (fv : List (String × List (String × List String)))
    (np : List (String × List (String × Nat))) (fileName attr : String)
    (vcs : List VC) (profile : List (String × JSVal))
    (pre post : List VariantCfg) (obj : VariantCfg) (vc : VC)
    (hpre : ∀ u ∈ pre, findVariantVC vcs fileName u = none)
    (hfound : findVariantVC vcs fileName obj = some vc) :
    matchAttributeValueLoop fv np fileName attr vcs profile (pre ++ obj :: post) =
      evalFoundVC fv np obj vc attr profile ∧
    ∀ dm : String → List VariantCfg, dm fileName = pre ++ obj :: post →
      matchAttributeValue fv np dm fileName attr vcs profile =
        evalFoundVC fv np obj vc attr profile := by
  have main : ∀ pre2, (∀ u ∈ pre2, findVariantVC vcs fileName u = none) →
      matchAttributeValueLoop fv np fileName attr vcs profile (pre2 ++ obj :: post) =
        evalFoundVC fv np obj vc attr profile := by
    intro pre2
    induction pre2 with
    | nil => intro _; simp [matchAttributeValueLoop, hfound]
    | cons u pre2 ih =>
      intro h
      have hu := h u (List.mem_cons_self _ _)
      simpa [matchAttributeValueLoop, hu] using
        ih (fun u' hu' => h u' (List.mem_cons_of_mem _ hu'))
  refine ⟨main pre hpre, ?_⟩
  intro dm hdm
  simp [matchAttributeValue, hdm, main pre hpre]

/-- Claim C9 witness: with an unmatched variant first, the matched `pan`
variant's mismatching comparison is returned and the trailing variant is
irrelevant. -/
theorem matchAttributeValue_variant_first_witness :
    matchAttributeValueLoop [] [] "doc1" "state" [vcValKerala] profileKarnataka
      [variantUnused, variantPan, variantRation] =
      evalFoundVC [] [] variantPan vcValKerala "state" profileKarnataka ∧
    evalFoundVC [] [] variantPan vcValKerala "state" profileKarnataka = .ok false :=
  ⟨(matchAttributeValue_variant_first [] [] "doc1" "state" [vcValKerala]
      profileKarnataka [variantUnused] [variantRation] variantPan vcValKerala
      (by
        intro u hu
        simp only [List.mem_singleton] at hu
        subst hu
        rfl)
      rfl).1,
   rfl⟩

/-- Claim C2: the validator does not stop at the first candidate — when
every candidate doc-type file evaluates without raising, `matchFilesLoop`
returns `verified` true exactly when some candidate matches and `docsUsed`
equal to the sublist of matching candidates; concretely, with the first
candidate mismatching and the second matching, `matchUserData` yields
`{verified: true, docsUsed: ["doc2"]}`, and with no match it yields
`{verified: false, docsUsed: []}`. -/
theorem matchUserData_no_short_circuit :
    (∀ (fv : List (String × List (String × List String)))
      (np : List (String × List (String × Nat)))
      (dm : String → List VariantCfg) (attr : String) (vcs : List VC)
      (profile : List (String × JSVal)) (files : List String),
      (∀ f ∈ files, ∃ b, matchAttributeValue fv np dm f attr vcs profile = .ok b) →
      matchFilesLoop fv np dm attr vcs profile files =
        .ok (files.any (isMatched fv np dm attr vcs profile),
             files.filter (isMatched fv np dm attr vcs profile))) ∧
    matchUserData stateConfig [] [] stateDocMaps profileKarnataka
      [vcValKerala, vcValKarnataka] =
      .ok [⟨"state", true, ["doc2"]⟩] ∧
    matchAttributeValue [] [] stateDocMaps "doc1" "state"
      [vcValKerala, vcValKarnataka] profileKarnataka = .ok false ∧
    matchAttributeValue [] [] stateDocMaps "doc2" "state"
      [vcValKerala, vcValKarnataka] profileKarnataka = .ok true ∧
    matchUserData stateConfig [] [] stateDocMaps profileGoa
      [vcValKerala, vcValKarnataka] = .ok [⟨"state", false, []⟩] := by
  refine ⟨?_, rfl, rfl, rfl, rfl⟩
  intro fv np dm attr vcs profile files h
  induction files with
  | nil => rfl
  | cons f rest ih =>
    obtain ⟨b, hb⟩ := h f (List.mem_cons_self _ _)
    have hrest := ih (fun f' hf' => h f' (List.mem_cons_of_mem _ hf'))
    have hm : isMatched fv np dm attr vcs profile f = b := by
      cases b <;> simp [isMatched, hb]
    cases b <;> simp [matchFilesLoop, hb, hrest, hm]

/-- Claim C2 witness: over the two state candidates, the scan evaluates both
and accumulates exactly the matching one. -/
theorem matchUserData_no_short_circuit_witness :
    matchFilesLoop [] [] stateDocMaps "state" [vcValKerala, vcValKarnataka]
      profileKarnataka ["doc1", "doc2"] =
      .ok ((["doc1", "doc2"]).any
            (isMatched [] [] stateDocMaps "state" [vcValKerala, vcValKarnataka]
              profileKarnataka),
           (["doc1", "doc2"]).filter
            (isMatched [] [] stateDocMaps "state" [vcValKerala, vcValKarnataka]
              profileKarnataka)) :=
  matchUserData_no_short_circuit.1 [] [] stateDocMaps "state"
    [vcValKerala, vcValKarnataka] profileKarnataka ["doc1", "doc2"]
    (by
      intro f hf
      simp only [List.mem_cons, List.not_mem_nil, or_false] at hf
      rcases hf with rfl | rfl
      · exact ⟨false, rfl⟩
      · exact ⟨true, rfl⟩)

/-- Claim C8 (counterexample): a path-resolution failure does escape as an
exception — with the categorical gender table lacking an entry for the
profile's stored value `"Female"`, `matchAttributeValue` raises the
`TypeError` from `values[attribute].includes(...)` instead of returning a
non-match. -/
theorem matchAttributeValue_categorical_throws :
    matchAttributeValue genderFieldValues [] genderDocMaps "doc1" "gender" [vcGenderF]
      profileFemale =
      .error "TypeError: Cannot read properties of undefined (reading includes)" := rfl

/-- Claim C8 (amended): in the default comparison branch — an attribute with
no categorical table, outside the name sub-fields and not `dob` — a dotted
path that resolves to `undefined` or `null` in the found VC produces a
non-match (`ok false`) without raising; the no-exception guarantee does not
extend to the categorical branch, where a missing table entry raises (see
the counterexample). -/
theorem matchAttributeValue_missing_value_default
    (fv : List (String × List (String × List String)))
    (np : List (String × List (String × Nat)))
    (dm : String → List VariantCfg) (fileName attr : String) (vcs : List VC)
    (profile : List (String × JSVal)) (obj : VariantCfg) (vc : VC)
    (restV : List VariantCfg) (p : String) (v : JSVal) (s : String)
    (hdm : dm fileName = obj :: restV)
    (hfound : findVariantVC vcs fileName obj = some vc)
    (hnofv : fv.lookup attr = none)
    (hname : nameAttrs.contains attr = false)
    (hdob : attr ≠ "dob")
    (hpath : obj.fields.lookup attr = some p)
    (hval : getAttributeValue vc (some p) = .ok v)
    (hmiss : v = JSVal.undef ∨ v = JSVal.null)
    (hprof : profile.lookup attr = some (JSVal.str s)) :
    matchAttributeValue fv np dm fileName attr vcs profile = .ok false := by
  have hloop : matchAttributeValueLoop fv np fileName attr vcs profile (obj :: restV) =
      evalFoundVC fv np obj vc attr profile := by
    simp [matchAttributeValueLoop, hfound]
  have hname' : attr ∉ nameAttrs := by simpa using hname
  have heval : evalFoundVC fv np obj vc attr profile = .ok false := by
    rcases hmiss with rfl | rfl <;>
      simp [evalFoundVC, hname', hpath, hval, hnofv, hdob, hprof, jsLooseEq]
  simp [matchAttributeValue, hdm, hloop, heval]

/-- Claim C8 (amended) witness: a VC lacking the configured `state` path
yields `undefined`, and the default branch returns a non-match without
raising. -/
theorem matchAttributeValue_missing_value_default_witness :
    matchAttributeValue genderFieldValues [] stateDocMaps "doc1" "state"
      [vcValMissingState] profileKarnataka = .ok false :=
  matchAttributeValue_missing_value_default genderFieldValues [] stateDocMaps "doc1"
    "state" [vcValMissingState] profileKarnataka variantPan vcValMissingState []
    "content.state" JSVal.undef "Karnataka" rfl rfl rfl rfl (by decide) rfl rfl
    (Or.inl rfl) rfl

end ProfileEngine
